import Mathlib

/-!
Verification of the employee-app Cloudflare Worker (src/db.js, src/index.js).

Shallow embedding conventions:
* JS strings are `List Char` (`Str`); string literals are written `"...".toList`.
* The D1 `employees` table is a list of rows plus the store counters that D1
  assigns (`nextId` for AUTOINCREMENT ids, `clock` for `created_at` values).
* Fallible JS code (thrown exceptions) is `Except Str`; stateful code passes
  the table explicitly and returns the updated table.
* Environment behaviour of the D1 driver that the source code is written
  defensively against (whether `run()` reports `lastInsertRowid` / `changes`,
  and injected driver faults) is a `D1Flavor` parameter.
-/

deriving instance DecidableEq for Except

namespace EmployeeApp

abbrev Str := List Char

/-- A row of the `employees` table (src/db.js CREATE TABLE, lines 19-28). -/
structure Employee where
  id : Int
  nirc : Str
  full_name : Str
  position : Str
  email : Str
  created_at : Nat
deriving DecidableEq

/-- The D1 database state: the `employees` rows in insertion order, the next
AUTOINCREMENT id, and the clock supplying `created_at` defaults. -/
structure Table where
  rows : List Employee
  nextId : Int
  clock : Nat
deriving DecidableEq

/-- A JavaScript value appearing as an entry of the `ids` array of a DELETE
request: either a number or a string (the only shapes the claims exercise). -/
inductive JsVal where
  | num (n : Int)
  | str (s : Str)
deriving DecidableEq

/-- JavaScript `String.prototype.trim`: strip whitespace from both ends. -/
def jsTrim (s : Str) : Str :=
  ((s.dropWhile Char.isWhitespace).reverse.dropWhile Char.isWhitespace).reverse

/-- A JavaScript number value as produced by `Number(...)` on accepted input:
a finite value or a signed infinity.  Finite values are exact rationals: the
binary-double rounding of ECMAScript numbers (and the overflow of huge
literals to Infinity) is not modelled, so every literal denotes its exact
mathematical value.  NaN is not a `JsNum`: a conversion producing NaN is
modelled as `none`. -/
inductive JsNum where
  | finite (q : Rat)
  | posInf
  | negInf
deriving DecidableEq

/-- The JS number denoted by an integer. -/
def intToJsNum (i : Int) : JsNum := .finite (i : Rat)

/-- Numeric equality of a JS number against an integer id: the comparison
performed by the SQL `id IN (...)` predicate on the INTEGER `id` column and
by the JavaScript `Set.has` membership test on the returned row ids. -/
def jsNumEqInt (n : JsNum) (i : Int) : Bool :=
  match n with
  | .finite q => decide (q = (i : Rat))
  | .posInf => false
  | .negInf => false

/-- Split a string at the first character satisfying `p`: the part before and
the part after the separator; `none` when no character satisfies `p`. -/
def splitFirst (p : Char → Bool) : Str → Option (Str × Str)
  | [] => none
  | c :: rest =>
    if p c then some ([], rest)
    else (splitFirst p rest).map (fun q => (c :: q.1, q.2))

/-- Value of a nonempty all-digit string (`DecimalDigits`), `none` otherwise. -/
def decNat? (s : Str) : Option Nat :=
  if !s.isEmpty && s.all Char.isDigit then
    some (s.foldl (fun a c => a * 10 + (c.toNat - 48)) 0)
  else none

/-- Body of an exponent part: optional sign followed by decimal digits. -/
def expInt? (s : Str) : Option Int :=
  match s with
  | '+' :: rest => (decNat? rest).map (fun n => (n : Int))
  | '-' :: rest => (decNat? rest).map (fun n => -(n : Int))
  | t => (decNat? t).map (fun n => (n : Int))

/-- An unsigned decimal mantissa — `digits`, `digits . digits?` or
`. digits` — as a scaled integer: `(m, k)` denotes `m / 10 ^ k`. -/
def mantissa? (s : Str) : Option (Nat × Nat) :=
  match splitFirst (fun c => decide (c = '.')) s with
  | none => (decNat? s).map (fun n => (n, 0))
  | some (ip, fp) =>
    if ip.isEmpty then
      (decNat? fp).map (fun f => (f, fp.length))
    else if fp.isEmpty then
      (decNat? ip).map (fun n => (n, 0))
    else
      match decNat? ip, decNat? fp with
      | some n, some f => some (n * 10 ^ fp.length + f, fp.length)
      | _, _ => none

/-- The rational `m * 10 ^ e / 10 ^ k`, built with `mkRat` so that it
normalizes by integer arithmetic. -/
def scaledRat (m k : Nat) (e : Int) : Rat :=
  if 0 ≤ e then mkRat ((m : Int) * (10 : Int) ^ e.toNat) (10 ^ k)
  else mkRat (m : Int) (10 ^ k * 10 ^ (-e).toNat)

/-- An unsigned decimal literal: a mantissa with an optional `e`/`E`
exponent part, as an exact rational. -/
def unsignedDec? (s : Str) : Option Rat :=
  match splitFirst (fun c => c = 'e' || c = 'E') s with
  | none => (mantissa? s).map (fun m => scaledRat m.1 m.2 0)
  | some (mstr, estr) =>
    match mantissa? mstr, expInt? estr with
    | some m, some e => some (scaledRat m.1 m.2 e)
    | _, _ => none

/-- Value of a digit character in bases up to 16, `none` otherwise. -/
def radixDigit? (c : Char) : Option Nat :=
  if c.isDigit then some (c.toNat - 48)
  else if 'a' ≤ c && c ≤ 'f' then some (c.toNat - 87)
  else if 'A' ≤ c && c ≤ 'F' then some (c.toNat - 55)
  else none

/-- Value of a nonempty digit string in the given radix, `none` otherwise. -/
def radixNat? (radix : Nat) (s : Str) : Option Nat :=
  if s.isEmpty then none
  else s.foldl (fun acc c =>
    match acc, radixDigit? c with
    | some a, some d => if d < radix then some (a * radix + d) else none
    | _, _ => none) (some 0)

/-- Body of a signed `StrDecimalLiteral`: `Infinity` (exact case) or an
unsigned decimal literal, negated when `neg` is set. -/
def signedBody? (neg : Bool) (body : Str) : Option JsNum :=
  if body = ("Infinity".toList) then some (if neg then .negInf else .posInf)
  else (unsignedDec? body).map (fun q => .finite (if neg then -q else q))

/-- ECMAScript `Number(string)` (the `StringNumericLiteral` grammar):
surrounding whitespace is stripped; the empty string denotes 0; the body is
an optionally signed decimal literal (`digits`, `digits . digits?` or
`. digits`, each with an optional `e`/`E` exponent part), an optionally
signed `Infinity`, or an unsigned hex/binary/octal literal (`0x`/`0X`,
`0b`/`0B`, `0o`/`0O` prefixes); everything else — the NaN outcomes — is
`none`.  Values are exact rationals (see `JsNum`). -/
def strToNumber? (s : Str) : Option JsNum :=
  match jsTrim s with
  | [] => some (.finite 0)
  | '0' :: 'x' :: rest => (radixNat? 16 rest).map (fun n => .finite (n : Rat))
  | '0' :: 'X' :: rest => (radixNat? 16 rest).map (fun n => .finite (n : Rat))
  | '0' :: 'b' :: rest => (radixNat? 2 rest).map (fun n => .finite (n : Rat))
  | '0' :: 'B' :: rest => (radixNat? 2 rest).map (fun n => .finite (n : Rat))
  | '0' :: 'o' :: rest => (radixNat? 8 rest).map (fun n => .finite (n : Rat))
  | '0' :: 'O' :: rest => (radixNat? 8 rest).map (fun n => .finite (n : Rat))
  | '+' :: rest => signedBody? false rest
  | '-' :: rest => signedBody? true rest
  | t => signedBody? false t

/-- The id-validation test of src/db.js line 129: an entry is valid iff it is
a number, or a string whose `Number(...)` is not NaN. -/
def isValidId : JsVal → Bool
  | .num _ => true
  | .str s => (strToNumber? s).isSome

/-- The `Number(id)` coercion of src/db.js line 135 (applied after validation,
so the `getD` default is never the value used on valid entries). -/
def idNumber : JsVal → JsNum
  | .num n => intToJsNum n
  | .str s => (strToNumber? s).getD (intToJsNum 0)

/-- JavaScript `String(n)` for an integer number. -/
def natToStr (n : Nat) : Str := Nat.toDigits 10 n

/-- JavaScript `String(i)` for an integer. -/
def intToStr (i : Int) : Str :=
  if i < 0 then ('-' :: natToStr i.natAbs) else natToStr i.natAbs

/-- JavaScript `String(n)` for the number values the model produces: integers
in plain decimal, finite non-integers as their exact decimal expansion (every
value `Number(string)` produces has a denominator dividing a power of ten, so
a finite expansion exists and the bounded search below finds its length), and
the Infinity forms.  ECMAScript's switch to exponential notation at extreme
magnitudes (at or above 1e21, below 1e-6) is not modelled, in keeping with
the exact-value idealization of `JsNum`.  The last fallback renders a
numerator-slash-denominator form for rationals with no finite decimal
expansion; no value produced by `strToNumber?` reaches it. -/
def jsNumToStr (n : JsNum) : Str :=
  match n with
  | .posInf => ("Infinity".toList)
  | .negInf => ("-Infinity".toList)
  | .finite q =>
    if q.den = 1 then intToStr q.num
    else
      match (List.range (q.den + 1)).find? (fun k => decide (q.den ∣ 10 ^ k)) with
      | some k =>
        let digits := natToStr (q.num.natAbs * 10 ^ k / q.den)
        let padded := List.replicate (k + 1 - digits.length) '0' ++ digits
        (if q.num < 0 then ['-'] else []) ++
          padded.take (padded.length - k) ++ '.' :: padded.drop (padded.length - k)
      | none => intToStr q.num ++ '/' :: natToStr q.den

/-- JavaScript `String(v)` of an id entry. -/
def jsValToStr : JsVal → Str
  | .num n => intToStr n
  | .str s => s

/-- JavaScript `Array.prototype.join` with separator comma-space. -/
def joinComma : List Str → Str
  | [] => []
  | [s] => s
  | s :: t :: rest => s ++ (", ".toList) ++ joinComma (t :: rest)

/-- Result object of the bulk-delete operations
(`{success, deletedCount, errors?}`); `errors := none` models the field being
absent from the returned object. -/
structure DeleteResult where
  success : Bool
  deletedCount : Nat
  errors : Option (List Str)
deriving DecidableEq

/-- Embedding of src/db.js lines 138-169, the body of `deleteEmployees` after
id validation and `Number` coercion: the existence check
(`SELECT id FROM employees WHERE id IN (...)`), the abort with the missing-id
list, and otherwise the single `DELETE ... WHERE id IN (...)` statement.

On the all-ids-exist path the source then executes line 160,
`deletedCount = result.changes || 0`: `deletedCount` is declared nowhere in
the module, and src/db.js is an ES module, hence strict-mode code, so this
assignment throws `ReferenceError: deletedCount is not defined` after the
DELETE statement has already run.  The inner catch (line 164) wraps it as
`Failed to delete employees: deletedCount is not defined`, and the outer
catch (line 168) wraps that once more.  The rows stay deleted: there is no
transaction in this variant. -/
def deleteEmployeesDbCore (tbl : Table) (nums : List JsNum) :
    Except Str DeleteResult × Table :=
  let foundIds := (tbl.rows.filter (fun r => nums.any (fun n => jsNumEqInt n r.id))).map Employee.id
  let missingNums := nums.filter (fun n => !foundIds.any (fun i => jsNumEqInt n i))
  if missingNums.isEmpty then
    let rows2 := tbl.rows.filter (fun r => !nums.any (fun n => jsNumEqInt n r.id))
    (Except.error ("Failed to delete employees: Failed to delete employees: deletedCount is not defined".toList),
     ⟨rows2, tbl.nextId, tbl.clock⟩)
  else
    (Except.ok ⟨false, 0,
       some [("Employees not found: ".toList) ++ joinComma (missingNums.map jsNumToStr)]⟩,
     tbl)

/-- Embedding of `deleteEmployees` from src/db.js (lines 120-170): the empty
check, the id validation of line 129, the `Number` coercion of line 135, then
`deleteEmployeesDbCore` for the rest of the body. -/
def deleteEmployeesDb (tbl : Table) (employeeIds : List JsVal) :
    Except Str DeleteResult × Table :=
  if employeeIds.isEmpty then
    (Except.error ("No employee IDs provided for deletion".toList), tbl)
  else
    let invalidIds := employeeIds.filter (fun i => !isValidId i)
    if invalidIds.isEmpty then
      deleteEmployeesDbCore tbl (employeeIds.map idNumber)
    else
      (Except.error (("Invalid employee IDs: ".toList) ++
         joinComma (invalidIds.map jsValToStr) ++ (". All IDs must be numbers.".toList)),
       tbl)

/-- One iteration of the per-id delete loop of the second `deleteEmployees`
variant (src/index.js lines 401-410): run `DELETE FROM employees WHERE id = ?`
for one id and bump `deletedCount` when the driver reports a positive
`changes` count (`result.changes` undefined makes `result.changes > 0`
false, so with `changesReported = false` the counter never moves).  Ids are
taken as integers: this variant binds the raw value into `id = ?` with no
`Number` coercion. -/
def indexDeleteStep (changesReported : Bool) (st : Table × Nat) (i : Int) :
    Table × Nat :=
  let changes := (st.1.rows.filter (fun r => decide (r.id = i))).length
  (⟨st.1.rows.filter (fun r => decide (r.id ≠ i)), st.1.nextId, st.1.clock⟩,
   if changesReported && decide (0 < changes) then st.2 + 1 else st.2)

/-- Embedding of the second `deleteEmployees` variant, the copy embedded at
src/index.js lines 385-427: per-id `DELETE FROM employees WHERE id = ?`
statements inside a BEGIN/COMMIT transaction, folded with `indexDeleteStep`.
A DELETE whose id matches no row is not a statement error (it simply reports
0 changes), so the `errors` array stays empty and the COMMIT return of lines
412-414 is always taken, reporting `success: true`. -/
def deleteEmployeesIndex (changesReported : Bool) (tbl : Table)
    (employeeIds : List Int) : Except Str DeleteResult × Table :=
  if employeeIds.isEmpty then
    (Except.error ("No employee IDs provided for deletion".toList), tbl)
  else
    let final := employeeIds.foldl (indexDeleteStep changesReported) (tbl, 0)
    (Except.ok ⟨true, final.2, none⟩, final.1)

/-- Insertion step of sorting by `created_at` descending. -/
def sortedInsertByCreated (e : Employee) : List Employee → List Employee
  | [] => [e]
  | x :: xs =>
    if x.created_at ≤ e.created_at then e :: x :: xs
    else x :: sortedInsertByCreated e xs

/-- The `ORDER BY created_at DESC` of the list query: sort the stored rows by
`created_at` descending. -/
def orderByCreatedDesc : List Employee → List Employee
  | [] => []
  | x :: xs => sortedInsertByCreated x (orderByCreatedDesc xs)

/-- Embedding of `listEmployees` from src/db.js lines 107-112:
`SELECT ... FROM employees ORDER BY created_at DESC`, with `res.results || []`
yielding the empty list on an empty table. -/
def listEmployees (tbl : Table) : List Employee :=
  orderByCreatedDesc tbl.rows

/-- Input of the create operation (the object built at src/index.js 105-110). -/
structure NewEmployee where
  nirc : Str
  fullName : Str
  position : Str
  email : Str
deriving DecidableEq

/-- Environment behaviour of the D1 driver that src/db.js defends against:
whether `run()` exposes `lastInsertRowid`, and an injected driver fault for
the INSERT statement (`none` = the insert succeeds barring a constraint
violation). -/
structure D1Flavor where
  rowidReported : Bool
  insertFault : Option Str
deriving DecidableEq

/-- Semantics of `INSERT INTO employees (nirc, full_name, position, email)
VALUES (?, ?, ?, ?)`: fails with the SQLite uniqueness-violation message when
a row with the same `nirc` exists, otherwise appends a row with the
store-assigned id and `created_at` and returns the new rowid. -/
def insertEmployee (tbl : Table) (d : NewEmployee) :
    Except Str (Table × Int) :=
  if tbl.rows.any (fun r => decide (r.nirc = d.nirc)) then
    Except.error ("UNIQUE constraint failed: employees.nirc".toList)
  else
    Except.ok
      (⟨tbl.rows ++ [⟨tbl.nextId, d.nirc, d.fullName, d.position, d.email, tbl.clock⟩],
        tbl.nextId + 1, tbl.clock + 1⟩,
       tbl.nextId)

/-- First result of `SELECT ... FROM employees WHERE id = ?` (`results[0]`). -/
def selectById (tbl : Table) (i : Int) : Option Employee :=
  (tbl.rows.filter (fun r => decide (r.id = i))).head?

/-- First result of `SELECT ... FROM employees WHERE nirc = ?` (`results[0]`). -/
def selectByNirc (tbl : Table) (n : Str) : Option Employee :=
  (tbl.rows.filter (fun r => decide (r.nirc = n))).head?

/-- Embedding of `addEmployee` from src/db.js lines 49-100: run the INSERT
(re-throwing driver errors, lines 61-66); if the run result reports
`lastInsertRowid` (line 69/73), read the row back by id; otherwise — or if
that lookup found nothing — fall back to reading it back by its unique `nirc`
(lines 84-93); fail if no row could be retrieved (lines 95-97). -/
def addEmployee (fl : D1Flavor) (tbl : Table) (d : NewEmployee) :
    Except Str Employee × Table :=
  match fl.insertFault with
  | some m => (Except.error m, tbl)
  | none =>
    match insertEmployee tbl d with
    | .error m => (Except.error m, tbl)
    | .ok (tbl2, newId) =>
      let rowById := if fl.rowidReported then selectById tbl2 newId else none
      match rowById with
      | some row => (Except.ok row, tbl2)
      | none =>
        match selectByNirc tbl2 d.nirc with
        | some row => (Except.ok row, tbl2)
        | none =>
          (Except.error ("Inserted employee could not be retrieved from database.".toList),
           tbl2)

/-- JSON body of a POST /api/employees request.  Fields are absent or strings
(the shapes the claims exercise); `none` models a missing field, which the
source coerces through `payload.field || ""`. -/
structure Payload where
  nirc : Option Str
  fullName : Option Str
  position : Option Str
  email : Option Str
deriving DecidableEq

/-- A `\w` word character: ASCII letter, digit or underscore. -/
def isWordChar (c : Char) : Bool := c.isAlphanum || c = '_'

/-- Decision procedure for the anchored regex of src/index.js line 56,
`^\w{3,20}$`: between 3 and 20 word characters. -/
def nircPattern (s : Str) : Bool :=
  s.all isWordChar && decide (3 ≤ s.length) && decide (s.length ≤ 20)

/-- Every proper split of a list into a concatenation of two parts. -/
def splitsOf (s : Str) : List (Str × Str) :=
  match s with
  | [] => [([], [])]
  | c :: rest => ([], c :: rest) :: (splitsOf rest).map (fun p => (c :: p.1, p.2))

/-- Decision procedure for the anchored regex of src/index.js line 58,
`^\S+@\S+\.\S+$`: membership in its language, i.e. the string decomposes as
`a @ b . c` with `a`, `b`, `c` nonempty and free of whitespace. -/
def emailPattern (s : Str) : Bool :=
  (splitsOf s).any fun p =>
    match p.2 with
    | [] => false
    | c :: rest =>
      decide (c = '@') && !p.1.isEmpty && p.1.all (fun a => !a.isWhitespace) &&
      ((splitsOf rest).any fun q =>
        match q.2 with
        | [] => false
        | d :: tail =>
          decide (d = '.') && !q.1.isEmpty && q.1.all (fun a => !a.isWhitespace) &&
          !tail.isEmpty && tail.all (fun a => !a.isWhitespace))

/-- The `payload.email ? String(payload.email).trim() : ""` coercion of
src/index.js line 54 (also used for `position` at lines 108-109): absent or
empty (falsy) yields the empty string, otherwise the trimmed string. -/
def optTrim (v : Option Str) : Str :=
  match v with
  | none => []
  | some s => if s.isEmpty then [] else jsTrim s

/-- Embedding of `validatePayload` from src/index.js lines 46-60: a missing
body is one message; otherwise the nirc-pattern, nonempty-full-name and
email-pattern checks each contribute their message, in source order. -/
def validatePayload (p : Option Payload) : List Str :=
  match p with
  | none => [("Missing body".toList)]
  | some payload =>
    let nirc := jsTrim (payload.nirc.getD [])
    let fullName := jsTrim (payload.fullName.getD [])
    let email := optTrim payload.email
    (if nircPattern nirc then [] else [("Invalid NIRC (3-20 alphanumeric characters)".toList)]) ++
    (if fullName.isEmpty then [("Full name is required".toList)] else []) ++
    (if !email.isEmpty && !emailPattern email then [("Invalid email address".toList)] else [])

/-- JSON shapes of the response bodies the router produces. -/
inductive RespBody where
  | errorsArr (errors : List Str)
  | errorMsg (error : Str)
  | errorDetails (error : Str) (details : Str)
  | message (msg : Str)
  | created (e : Employee)
  | deleted (r : DeleteResult)
deriving DecidableEq

/-- An HTTP response: status code and JSON body. -/
structure HttpResponse where
  status : Nat
  body : RespBody
deriving DecidableEq

/-- Whether `small` occurs as a contiguous run inside `hay`
(JavaScript `String.prototype.includes`). -/
def substrOf (small hay : Str) : Bool :=
  (splitsOf hay).any (fun p => decide (small <+: p.2))

/-- The `/unique/i.test(msg)` check of src/index.js line 115 (the second
disjunct, `/UNIQUE constraint failed/i`, is subsumed by it): case-insensitive
substring search. -/
def regexUniqueI (msg : Str) : Bool :=
  substrOf ("unique".toList) (msg.map Char.toLower)

/-- Embedding of the POST /api/employees branch of the router
(src/index.js lines 92-122): the Content-Type gate (415), validation (400
with the full errors array, before any store call), the insert, the
`/unique/i` remap to 409, and the catch-all 500 whose body carries
`error: "Database insert failed"` together with `details` set to the raw
error message. -/
def handlePost (fl : D1Flavor) (tbl : Table) (contentType : Str)
    (payload : Option Payload) : HttpResponse × Table :=
  if !substrOf ("application/json".toList) contentType then
    (⟨415, .errorMsg ("Content-Type must be application/json".toList)⟩, tbl)
  else
    let errors := validatePayload payload
    if !errors.isEmpty then
      (⟨400, .errorsArr errors⟩, tbl)
    else
      let p := payload.getD ⟨none, none, none, none⟩
      let d : NewEmployee :=
        ⟨jsTrim (p.nirc.getD []), jsTrim (p.fullName.getD []),
         optTrim p.position, optTrim p.email⟩
      match addEmployee fl tbl d with
      | (Except.ok created, tbl2) => (⟨201, .created created⟩, tbl2)
      | (Except.error m, tbl2) =>
        if regexUniqueI m then
          (⟨409, .message ("Employee with that NIRC already exists".toList)⟩, tbl2)
        else
          (⟨500, .errorDetails ("Database insert failed".toList) m⟩, tbl2)

/-- Embedding of the DELETE /api/employees branch of the router
(src/index.js lines 125-143): the Content-Type gate (415), the
`Array.isArray(payload.ids) && payload.ids.length > 0` gate (400; `none`
models `ids` absent or not an array), the call into the db.js
`deleteEmployees`, its result mapped to 200/400 by `result.success`, and a
thrown store error mapped to 500 with `details` set to the raw message. -/
def handleDelete (tbl : Table) (contentType : Str)
    (ids : Option (List JsVal)) : HttpResponse × Table :=
  if !substrOf ("application/json".toList) contentType then
    (⟨415, .errorMsg ("Content-Type must be application/json".toList)⟩, tbl)
  else
    match ids with
    | none =>
      (⟨400, .errorMsg ("ids must be a non-empty array of employee IDs".toList)⟩, tbl)
    | some l =>
      if l.isEmpty then
        (⟨400, .errorMsg ("ids must be a non-empty array of employee IDs".toList)⟩, tbl)
      else
        match deleteEmployeesDb tbl l with
        | (Except.ok r, tbl2) =>
          (⟨if r.success then 200 else 400, .deleted r⟩, tbl2)
        | (Except.error m, tbl2) =>
          (⟨500, .errorDetails ("Database delete failed".toList) m⟩, tbl2)

/-! ### Helper lemmas about the delete paths -/

/-- The entries of `nums` that match no row of the table: the spec-level view
of the missing-id computation, over JS numbers. -/
def missingNumsOf (tbl : Table) (nums : List JsNum) : List JsNum :=
  nums.filter (fun n => !tbl.rows.any (fun r => jsNumEqInt n r.id))

/-- The integer ids of `nums` that exist in no row of the table (spec-level
view of the missing-id computation on the integer scope). -/
def missingOf (tbl : Table) (nums : List Int) : List Int :=
  nums.filter (fun i => decide (∀ r ∈ tbl.rows, r.id ≠ i))

theorem coreMissing_eq (tbl : Table) (nums : List JsNum) :
    nums.filter (fun n =>
        !((tbl.rows.filter (fun r => nums.any (fun m => jsNumEqInt m r.id))).map
            Employee.id).any (fun i => jsNumEqInt n i))
      = missingNumsOf tbl nums := by
  unfold missingNumsOf
  apply List.filter_congr
  intro n hn
  have hiff : ((tbl.rows.filter (fun r => nums.any (fun m => jsNumEqInt m r.id))).map
      Employee.id).any (fun i => jsNumEqInt n i) =
      tbl.rows.any (fun r => jsNumEqInt n r.id) := by
    rw [Bool.eq_iff_iff]
    simp only [List.any_eq_true, List.mem_map, List.mem_filter]
    constructor
    · rintro ⟨i, ⟨r, ⟨hr, hrm⟩, rfl⟩, hni⟩
      exact ⟨r, hr, hni⟩
    · rintro ⟨r, hr, hnr⟩
      exact ⟨r.id, ⟨r, ⟨hr, ⟨n, hn, hnr⟩⟩, rfl⟩, hnr⟩
  rw [hiff]

theorem deleteDbCore_missing (tbl : Table) (nums : List JsNum)
    (h : missingNumsOf tbl nums ≠ []) :
    deleteEmployeesDbCore tbl nums =
      (Except.ok ⟨false, 0, some [("Employees not found: ".toList) ++
         joinComma ((missingNumsOf tbl nums).map jsNumToStr)]⟩, tbl) := by
  unfold deleteEmployeesDbCore
  simp only [coreMissing_eq]
  rw [if_neg]
  simp [List.isEmpty_iff, h]

theorem missingNumsOf_ne_nil (tbl : Table) (nums : List JsNum) (n : JsNum)
    (hn : n ∈ nums) (h : ∀ r ∈ tbl.rows, jsNumEqInt n r.id = false) :
    missingNumsOf tbl nums ≠ [] := by
  refine List.ne_nil_of_mem (List.mem_filter.2 ⟨hn, ?_⟩)
  rw [Bool.not_eq_true']
  rw [List.any_eq_false]
  intro r hr
  simp [h r hr]

theorem missingOf_ne_nil (tbl : Table) (nums : List Int)
    (h : ∃ i ∈ nums, ∀ r ∈ tbl.rows, r.id ≠ i) :
    missingOf tbl nums ≠ [] := by
  obtain ⟨i, hi, hr⟩ := h
  exact List.ne_nil_of_mem (List.mem_filter.2 ⟨hi, decide_eq_true hr⟩)

theorem jsNumEqInt_int (k i : Int) : jsNumEqInt (intToJsNum k) i = decide (k = i) := by
  unfold jsNumEqInt intToJsNum
  exact decide_eq_decide.2 Int.cast_inj

theorem jsNumToStr_int (k : Int) : jsNumToStr (intToJsNum k) = intToStr k := by
  unfold jsNumToStr intToJsNum
  simp [Rat.intCast_den, Rat.intCast_num]

theorem missingNums_int (tbl : Table) (ints : List Int) :
    missingNumsOf tbl (ints.map intToJsNum) = (missingOf tbl ints).map intToJsNum := by
  unfold missingNumsOf missingOf
  rw [List.filter_map]
  apply congrArg (List.map intToJsNum)
  apply List.filter_congr
  intro k hk
  show (!tbl.rows.any (fun r => jsNumEqInt (intToJsNum k) r.id)) =
    decide (∀ r ∈ tbl.rows, r.id ≠ k)
  simp only [jsNumEqInt_int]
  rw [Bool.eq_iff_iff, Bool.not_eq_true']
  simp only [List.any_eq_false, decide_eq_true_eq]
  exact ⟨fun h r hr he => h r hr he.symm, fun h r hr he => h r hr he.symm⟩

theorem deleteDbCore_int_missing (tbl : Table) (ints : List Int)
    (h : missingOf tbl ints ≠ []) :
    deleteEmployeesDbCore tbl (ints.map intToJsNum) =
      (Except.ok ⟨false, 0, some [("Employees not found: ".toList) ++
         joinComma ((missingOf tbl ints).map intToStr)]⟩, tbl) := by
  rw [deleteDbCore_missing tbl (ints.map intToJsNum)
      (by rw [missingNums_int]; simp [List.map_eq_nil_iff, h])]
  rw [missingNums_int, List.map_map]
  have hmc : List.map (jsNumToStr ∘ intToJsNum) (missingOf tbl ints) =
      List.map intToStr (missingOf tbl ints) :=
    List.map_congr_left (fun k _ => jsNumToStr_int k)
  rw [hmc]

theorem deleteDb_invalid (tbl : Table) (ids : List JsVal) (j : JsVal)
    (hj : j ∈ ids) (hv : isValidId j = false) :
    ∃ m, deleteEmployeesDb tbl ids = (Except.error m, tbl) := by
  unfold deleteEmployeesDb
  rw [if_neg (by simp [List.isEmpty_iff, List.ne_nil_of_mem hj])]
  have hmem : j ∈ ids.filter (fun i => !isValidId i) :=
    List.mem_filter.2 ⟨hj, by simp [hv]⟩
  rw [if_neg (by simp [List.isEmpty_iff, List.ne_nil_of_mem hmem])]
  exact ⟨_, rfl⟩

theorem indexDelete_foldl_table (b : Bool) (ids : List Int) (t : Table) (c : Nat) :
    (ids.foldl (indexDeleteStep b) (t, c)).1 =
      ⟨t.rows.filter (fun r => decide (r.id ∉ ids)), t.nextId, t.clock⟩ := by
  induction ids generalizing t c with
  | nil =>
    simp only [List.foldl_nil]
    cases t with
    | mk rows nextId clock =>
      simp [List.filter_congr (fun r _ => by simp : ∀ r ∈ rows,
        decide (r.id ∉ ([] : List Int)) = true)]
  | cons i rest ih =>
    rw [List.foldl_cons, ih]
    unfold indexDeleteStep
    simp only [List.filter_filter]
    congr 1
    apply List.filter_congr
    intro r _
    rw [← Bool.decide_and]
    apply decide_eq_decide.2
    simp only [List.mem_cons, not_or]
    exact and_comm

/-! ### Sorting lemmas for the list query -/

theorem sortedInsert_perm (e : Employee) (l : List Employee) :
    (sortedInsertByCreated e l).Perm (e :: l) := by
  induction l with
  | nil => simp [sortedInsertByCreated]
  | cons x xs ih =>
    unfold sortedInsertByCreated
    by_cases h : x.created_at ≤ e.created_at
    · rw [if_pos h]
    · rw [if_neg h]
      exact (List.Perm.cons x ih).trans (List.Perm.swap e x xs)

theorem sortedInsert_sorted (e : Employee) (l : List Employee)
    (h : List.Pairwise (fun a b => b.created_at ≤ a.created_at) l) :
    List.Pairwise (fun a b => b.created_at ≤ a.created_at)
      (sortedInsertByCreated e l) := by
  induction l with
  | nil => simp [sortedInsertByCreated]
  | cons x xs ih =>
    obtain ⟨hx, hxs⟩ := List.pairwise_cons.1 h
    unfold sortedInsertByCreated
    by_cases hle : x.created_at ≤ e.created_at
    · rw [if_pos hle]
      refine List.pairwise_cons.2 ⟨?_, h⟩
      intro b hb
      rcases List.mem_cons.1 hb with rfl | hb
      · exact hle
      · exact (hx b hb).trans hle
    · rw [if_neg hle]
      refine List.pairwise_cons.2 ⟨?_, ih hxs⟩
      intro b hb
      have hb2 : b ∈ e :: xs := (sortedInsert_perm e xs).mem_iff.1 hb
      rcases List.mem_cons.1 hb2 with rfl | hb2
      · exact Nat.le_of_lt (Nat.lt_of_not_le hle)
      · exact hx b hb2

theorem orderBy_perm (l : List Employee) :
    (orderByCreatedDesc l).Perm l := by
  induction l with
  | nil => simp [orderByCreatedDesc]
  | cons x xs ih =>
    exact (sortedInsert_perm x (orderByCreatedDesc xs)).trans (List.Perm.cons x ih)

theorem orderBy_sorted (l : List Employee) :
    List.Pairwise (fun a b => b.created_at ≤ a.created_at)
      (orderByCreatedDesc l) := by
  induction l with
  | nil => simp [orderByCreatedDesc]
  | cons x xs ih => exact sortedInsert_sorted x (orderByCreatedDesc xs) ih

theorem deleteDb_valid_eq_core (tbl : Table) (ids : List JsVal)
    (hne : ids ≠ []) (hvalid : ∀ i ∈ ids, isValidId i = true) :
    deleteEmployeesDb tbl ids = deleteEmployeesDbCore tbl (ids.map idNumber) := by
  unfold deleteEmployeesDb
  rw [if_neg (by simp [List.isEmpty_iff, hne])]
  have hinv : ids.filter (fun i => !isValidId i) = [] :=
    List.filter_eq_nil_iff.2 (fun i hi => by simp [hvalid i hi])
  simp only [hinv, List.isEmpty_nil, if_pos]

theorem deleteDb_int_missing (tbl : Table) (ids : List JsVal) (ints : List Int)
    (hne : ids ≠ [])
    (hvalid : ∀ i ∈ ids, isValidId i = true)
    (hco : ids.map idNumber = ints.map intToJsNum)
    (hmiss : missingOf tbl ints ≠ []) :
    deleteEmployeesDb tbl ids =
      (Except.ok ⟨false, 0, some [("Employees not found: ".toList) ++
         joinComma ((missingOf tbl ints).map intToStr)]⟩, tbl) := by
  rw [deleteDb_valid_eq_core tbl ids hne hvalid, hco]
  exact deleteDbCore_int_missing tbl ints hmiss

/-! ### The claims -/

/-- C1: the claim states that when every requested id exists, `deleteEmployees`
(src/db.js) removes exactly those rows in one statement and returns
success=true with deletedCount equal to the number removed.  Contrary to the
claim and to the function's own JSDoc return contract, the success path
cannot return: after the DELETE statement runs, line 160 assigns the
undeclared variable `deletedCount`, which in a strict-mode ES module throws a
ReferenceError, so the call throws (double-wrapped by the two catch blocks)
with the rows already removed.  Evaluated here at a table holding ids 1 and 2
and the request [1, 2]: both rows disappear and the call throws instead of
returning success=true, deletedCount=2. -/
theorem C1_success_path_deletes_then_throws :
    deleteEmployeesDb
        ⟨[⟨1, ("EMP01".toList), ("Alice".toList), [], [], 0⟩,
          ⟨2, ("EMP02".toList), ("Bob".toList), [], [], 1⟩], 3, 2⟩
        [JsVal.num 1, JsVal.num 2] =
      (Except.error
         ("Failed to delete employees: Failed to delete employees: deletedCount is not defined".toList),
       ⟨[], 3, 2⟩) := by
  decide

/-- C2: for every database state and every nonempty list of numeric ids —
entries that pass the id validation and whose `Number` coercions are the
integers `ints`, the values that can denote records of the integer-keyed
table — of which at least one is absent from the employees table,
`deleteEmployees` (src/db.js) deletes nothing — the table is unchanged — and
returns success=false, deletedCount=0, with an error naming exactly the
requested ids that are missing. -/
theorem C2_missing_ids_abort (tbl : Table) (ids : List JsVal) (ints : List Int)
    (hne : ids ≠ [])
    (hvalid : ∀ i ∈ ids, isValidId i = true)
    (hco : ids.map idNumber = ints.map intToJsNum)
    (hmiss : ∃ k ∈ ints, ∀ r ∈ tbl.rows, r.id ≠ k) :
    deleteEmployeesDb tbl ids =
      (Except.ok ⟨false, 0, some [("Employees not found: ".toList) ++
         joinComma ((missingOf tbl ints).map intToStr)]⟩, tbl) :=
  deleteDb_int_missing tbl ids ints hne hvalid hco
    (missingOf_ne_nil tbl ints hmiss)

/-- Witness for C2: a table holding ids 1 and 2, request [1, 2, 3]; id 3 is
missing, so the result is success=false, deletedCount=0, the error names 3,
and the table is unchanged. -/
theorem C2_missing_ids_abort_witness :
    deleteEmployeesDb
        ⟨[⟨1, ("EMP01".toList), ("Alice".toList), [], [], 0⟩,
          ⟨2, ("EMP02".toList), ("Bob".toList), [], [], 1⟩], 3, 2⟩
        [JsVal.num 1, JsVal.num 2, JsVal.num 3] =
      (Except.ok ⟨false, 0, some [("Employees not found: ".toList) ++
         joinComma ((missingOf
           ⟨[⟨1, ("EMP01".toList), ("Alice".toList), [], [], 0⟩,
             ⟨2, ("EMP02".toList), ("Bob".toList), [], [], 1⟩], 3, 2⟩
           [1, 2, 3]).map intToStr)]⟩,
       ⟨[⟨1, ("EMP01".toList), ("Alice".toList), [], [], 0⟩,
         ⟨2, ("EMP02".toList), ("Bob".toList), [], [], 1⟩], 3, 2⟩) :=
  C2_missing_ids_abort _ _ [1, 2, 3] (by decide) (by decide) rfl (by decide)

/-- C3 counterexample: the claim states that a DELETE /api/employees request
whose ids array contains a non-numeric entry is rejected with a 400
validation error and never yields a 500.  On the concrete request body
with ids ["abc"] the router passes the array to the store, the store's id
validation throws, and the router's catch maps the thrown error to a 500
response — not a 400. -/
theorem C3_counterexample :
    (handleDelete ⟨[], 1, 0⟩ ("application/json".toList)
        (some [JsVal.str ("abc".toList)])).1.status = 500 := by
  decide

/-- C3 amended: an empty or non-array ids payload is rejected with 400 before
the store runs and the table is untouched; an ids array containing a
non-numeric entry instead reaches the store, whose id validation throws
before any row is deleted, and the router maps the thrown error to a 500 —
the table is likewise untouched. -/
theorem C3_amended (tbl : Table) (ids : Option (List JsVal)) :
    ((ids = none ∨ ids = some []) →
      handleDelete tbl ("application/json".toList) ids =
        (⟨400, RespBody.errorMsg
           ("ids must be a non-empty array of employee IDs".toList)⟩, tbl)) ∧
    (∀ l j, ids = some l → j ∈ l → isValidId j = false →
      (handleDelete tbl ("application/json".toList) ids).1.status = 500 ∧
      (handleDelete tbl ("application/json".toList) ids).2 = tbl) := by
  constructor
  · intro h
    rcases h with rfl | rfl
    · unfold handleDelete
      rw [if_neg (by decide)]
    · unfold handleDelete
      rw [if_neg (by decide)]
      rfl
  · intro l j hl hj hv
    subst hl
    obtain ⟨m, hm⟩ := deleteDb_invalid tbl l j hj hv
    unfold handleDelete
    rw [if_neg (by decide)]
    simp only []
    rw [if_neg (by simp [List.isEmpty_iff, List.ne_nil_of_mem hj]), hm]
    exact ⟨rfl, rfl⟩

/-- Witness for C3 amended: with an empty table, a missing ids field yields
the 400 rejection, and ids ["abc"] yields a 500. -/
theorem C3_amended_witness :
    handleDelete ⟨[], 1, 0⟩ ("application/json".toList) none =
      (⟨400, RespBody.errorMsg
         ("ids must be a non-empty array of employee IDs".toList)⟩, ⟨[], 1, 0⟩) ∧
    (handleDelete ⟨[], 1, 0⟩ ("application/json".toList)
        (some [JsVal.str ("abc".toList)])).1.status = 500 :=
  ⟨(C3_amended ⟨[], 1, 0⟩ none).1 (Or.inl rfl),
   ((C3_amended ⟨[], 1, 0⟩ (some [JsVal.str ("abc".toList)])).2
      [JsVal.str ("abc".toList)] (JsVal.str ("abc".toList))
      rfl (by decide) (by decide)).1⟩

/-- C4: the claim states that when a storage operation fails unexpectedly the
500 response body carries only a sanitized generic message, the raw cause
being logged server-side and not returned.  Contrary to the claim — and to
the source's own comment at src/index.js line 119, `Return sanitized error to
client` — line 120 puts the raw error message into the response body as the
`details` field.  Evaluated here at a valid create request whose INSERT fails
with the driver message `disk I O error`: the 500 body contains that raw
message verbatim. -/
theorem C4_raw_cause_in_response_body :
    handlePost ⟨true, some ("disk I O error".toList)⟩ ⟨[], 1, 0⟩
        ("application/json".toList)
        (some ⟨some ("EMP03".toList), some ("Carol".toList), none, none⟩) =
      (⟨500, RespBody.errorDetails ("Database insert failed".toList)
         ("disk I O error".toList)⟩,
       ⟨[], 1, 0⟩) := by
  decide

/-- C5: for every POST /api/employees payload that fails validation, the
router returns 400 with the full list of violated rules as separate messages
and makes no store call (the table is unchanged); in particular the payload
with nirc "a", an empty fullName and no email yields exactly the two
messages about NIRC length and the missing full name. -/
theorem C5_validation_enumerates (fl : D1Flavor) (tbl : Table)
    (p : Option Payload) (h : validatePayload p ≠ []) :
    handlePost fl tbl ("application/json".toList) p =
      (⟨400, RespBody.errorsArr (validatePayload p)⟩, tbl) ∧
    validatePayload (some ⟨some ("a".toList), some [], none, none⟩) =
      [("Invalid NIRC (3-20 alphanumeric characters)".toList),
       ("Full name is required".toList)] := by
  refine ⟨?_, by decide⟩
  unfold handlePost
  rw [if_neg (by decide), if_pos (by simp [List.isEmpty_iff, h])]

/-- Witness for C5: the payload with nirc "a" and empty fullName fails
validation, and the POST handler returns the 400 with the errors array,
leaving an empty table unchanged. -/
theorem C5_validation_enumerates_witness :
    handlePost ⟨true, none⟩ ⟨[], 1, 0⟩ ("application/json".toList)
        (some ⟨some ("a".toList), some [], none, none⟩) =
      (⟨400, RespBody.errorsArr
         (validatePayload (some ⟨some ("a".toList), some [], none, none⟩))⟩,
       ⟨[], 1, 0⟩) :=
  (C5_validation_enumerates ⟨true, none⟩ ⟨[], 1, 0⟩
    (some ⟨some ("a".toList), some [], none, none⟩) (by decide)).1

/-- C6: for every create request whose (trimmed) nirc already occurs exactly
once in the employees table, the insert itself fails with the store's
uniqueness-violation signal — `addEmployee` performs no pre-check, it simply
runs the INSERT and re-throws — and the router pattern-matches the message
and maps it to the distinct 409 "already exists" response, leaving the table
unchanged and still containing exactly one record with that nirc. -/
theorem C6_duplicate_nirc_409 (fl : D1Flavor) (tbl : Table) (p : Payload)
    (hfault : fl.insertFault = none)
    (hval : validatePayload (some p) = [])
    (hdup : (tbl.rows.filter
        (fun r => decide (r.nirc = jsTrim (p.nirc.getD [])))).length = 1) :
    handlePost fl tbl ("application/json".toList) (some p) =
      (⟨409, RespBody.message ("Employee with that NIRC already exists".toList)⟩,
       tbl) ∧
    ((handlePost fl tbl ("application/json".toList) (some p)).2.rows.filter
        (fun r => decide (r.nirc = jsTrim (p.nirc.getD [])))).length = 1 := by
  have hins : insertEmployee tbl
      ⟨jsTrim (p.nirc.getD []), jsTrim (p.fullName.getD []),
       optTrim p.position, optTrim p.email⟩ =
      Except.error ("UNIQUE constraint failed: employees.nirc".toList) := by
    unfold insertEmployee
    rw [if_pos]
    apply List.any_eq_true.2
    have hpos : 0 < (tbl.rows.filter
        (fun r => decide (r.nirc = jsTrim (p.nirc.getD [])))).length := by
      rw [hdup]; exact Nat.one_pos
    obtain ⟨r, hr⟩ := List.exists_mem_of_length_pos hpos
    have hr2 := List.mem_filter.1 hr
    exact ⟨r, hr2.1, hr2.2⟩
  have hadd : addEmployee fl tbl
      ⟨jsTrim (p.nirc.getD []), jsTrim (p.fullName.getD []),
       optTrim p.position, optTrim p.email⟩ =
      (Except.error ("UNIQUE constraint failed: employees.nirc".toList), tbl) := by
    obtain ⟨b, f⟩ := fl
    have hf : f = none := hfault
    subst hf
    unfold addEmployee
    rw [hins]
  have hmain : handlePost fl tbl ("application/json".toList) (some p) =
      (⟨409, RespBody.message ("Employee with that NIRC already exists".toList)⟩,
       tbl) := by
    unfold handlePost
    rw [if_neg (by decide)]
    simp only [hval]
    rw [if_neg (by decide)]
    simp only [Option.getD_some]
    rw [hadd]
    rfl
  exact ⟨hmain, by rw [hmain]; exact hdup⟩

/-- Witness for C6: a table holding one record with nirc EMP01 and a create
request for the same nirc yields the 409 response and leaves exactly one
EMP01 record. -/
theorem C6_duplicate_nirc_409_witness :
    handlePost ⟨true, none⟩
        ⟨[⟨1, ("EMP01".toList), ("Alice".toList), [], [], 0⟩], 2, 1⟩
        ("application/json".toList)
        (some ⟨some ("EMP01".toList), some ("Bob".toList), none, none⟩) =
      (⟨409, RespBody.message ("Employee with that NIRC already exists".toList)⟩,
       ⟨[⟨1, ("EMP01".toList), ("Alice".toList), [], [], 0⟩], 2, 1⟩) ∧
    ((handlePost ⟨true, none⟩
        ⟨[⟨1, ("EMP01".toList), ("Alice".toList), [], [], 0⟩], 2, 1⟩
        ("application/json".toList)
        (some ⟨some ("EMP01".toList), some ("Bob".toList), none, none⟩)).2.rows.filter
      (fun r => decide (r.nirc =
        jsTrim ((some ("EMP01".toList)).getD [])))).length = 1 :=
  C6_duplicate_nirc_409 ⟨true, none⟩
    ⟨[⟨1, ("EMP01".toList), ("Alice".toList), [], [], 0⟩], 2, 1⟩
    ⟨some ("EMP01".toList), some ("Bob".toList), none, none⟩
    rfl (by decide) (by decide)

/-- C7: for every successful create with a fresh nirc (no existing row shares
the nirc, and — the AUTOINCREMENT invariant — no existing row carries the
next id), `addEmployee` returns the persisted record read back from the
table: id is the store-assigned `nextId`, `created_at` is the store clock,
and the remaining fields equal the input; this holds for both driver
behaviours, in particular when `lastInsertRowid` is not reported
(`rowidReported = false`) and the row is retrieved by the fallback lookup on
its unique nirc. -/
theorem C7_create_returns_persisted (fl : D1Flavor) (tbl : Table)
    (d : NewEmployee)
    (hfault : fl.insertFault = none)
    (hfresh : ∀ r ∈ tbl.rows, r.nirc ≠ d.nirc)
    (hid : ∀ r ∈ tbl.rows, r.id ≠ tbl.nextId) :
    addEmployee fl tbl d =
      (Except.ok ⟨tbl.nextId, d.nirc, d.fullName, d.position, d.email, tbl.clock⟩,
       ⟨tbl.rows ++ [⟨tbl.nextId, d.nirc, d.fullName, d.position, d.email, tbl.clock⟩],
        tbl.nextId + 1, tbl.clock + 1⟩) := by
  have hins : insertEmployee tbl d = Except.ok
      (⟨tbl.rows ++ [⟨tbl.nextId, d.nirc, d.fullName, d.position, d.email, tbl.clock⟩],
        tbl.nextId + 1, tbl.clock + 1⟩, tbl.nextId) := by
    unfold insertEmployee
    rw [if_neg]
    simp only [List.any_eq_true, decide_eq_true_eq, not_exists, not_and]
    intro r hr
    exact hfresh r hr
  have hByNirc : selectByNirc
      ⟨tbl.rows ++ [⟨tbl.nextId, d.nirc, d.fullName, d.position, d.email, tbl.clock⟩],
       tbl.nextId + 1, tbl.clock + 1⟩ d.nirc =
      some ⟨tbl.nextId, d.nirc, d.fullName, d.position, d.email, tbl.clock⟩ := by
    unfold selectByNirc
    simp only [List.filter_append]
    have h1 : tbl.rows.filter (fun r => decide (r.nirc = d.nirc)) = [] :=
      List.filter_eq_nil_iff.2 (fun r hr => by simp [hfresh r hr])
    rw [h1]
    simp
  have hById : selectById
      ⟨tbl.rows ++ [⟨tbl.nextId, d.nirc, d.fullName, d.position, d.email, tbl.clock⟩],
       tbl.nextId + 1, tbl.clock + 1⟩ tbl.nextId =
      some ⟨tbl.nextId, d.nirc, d.fullName, d.position, d.email, tbl.clock⟩ := by
    unfold selectById
    simp only [List.filter_append]
    have h1 : tbl.rows.filter (fun r => decide (r.id = tbl.nextId)) = [] :=
      List.filter_eq_nil_iff.2 (fun r hr => by simp [hid r hr])
    rw [h1]
    simp
  obtain ⟨b, f⟩ := fl
  have hf : f = none := hfault
  subst hf
  unfold addEmployee
  rw [hins]
  cases b
  · simp only [Bool.false_eq_true, if_false]
    rw [hByNirc]
  · simp only [if_true]
    rw [hById]

/-- Witness for C7: creating EMP10 in an empty table with `nextId` 5 and
clock 7, under a driver that does not report `lastInsertRowid`, returns the
persisted row with id 5 and `created_at` 7. -/
theorem C7_create_returns_persisted_witness :
    addEmployee ⟨false, none⟩ ⟨[], 5, 7⟩
        ⟨("EMP10".toList), ("Dana".toList), [], []⟩ =
      (Except.ok ⟨5, ("EMP10".toList), ("Dana".toList), [], [], 7⟩,
       ⟨[⟨5, ("EMP10".toList), ("Dana".toList), [], [], 7⟩], 6, 8⟩) :=
  C7_create_returns_persisted ⟨false, none⟩ ⟨[], 5, 7⟩
    ⟨("EMP10".toList), ("Dana".toList), [], []⟩
    rfl (by decide) (by decide)

/-- C8: for every database state, `listEmployees` returns a permutation of
the employees table ordered by `created_at` descending (each element is
followed only by elements with a smaller-or-equal `created_at`), and on an
empty table it returns the empty list rather than failing. -/
theorem C8_list_ordered_desc (tbl : Table) :
    (listEmployees tbl).Perm tbl.rows ∧
    List.Pairwise (fun a b : Employee => b.created_at ≤ a.created_at)
      (listEmployees tbl) ∧
    (tbl.rows = [] → listEmployees tbl = []) := by
  refine ⟨orderBy_perm tbl.rows, orderBy_sorted tbl.rows, ?_⟩
  intro h
  unfold listEmployees
  rw [h]
  rfl

/-- Witness for C8: the empty table lists as the empty sequence. -/
theorem C8_list_ordered_desc_witness :
    (listEmployees ⟨[], 1, 0⟩).Perm ([] : List Employee) ∧
    List.Pairwise (fun a b : Employee => b.created_at ≤ a.created_at)
      (listEmployees ⟨[], 1, 0⟩) ∧
    (([] : List Employee) = [] → listEmployees ⟨[], 1, 0⟩ = []) :=
  C8_list_ordered_desc ⟨[], 1, 0⟩

/-- C9 counterexample: the claim states the two `deleteEmployees`
implementations (src/db.js and the copy in src/index.js) are behaviorally
equivalent on every state and id list.  On a table holding only id 1 and the
request [1, 2], the db.js variant aborts — success=false, deletedCount=0, an
error naming 2, table unchanged — while the index.js variant deletes row 1
and reports success=true, deletedCount=1: different results and different
final tables. -/
theorem C9_counterexample :
    deleteEmployeesDb ⟨[⟨1, ("EMP01".toList), ("Alice".toList), [], [], 0⟩], 2, 1⟩
        [JsVal.num 1, JsVal.num 2] =
      (Except.ok ⟨false, 0, some [("Employees not found: 2".toList)]⟩,
       ⟨[⟨1, ("EMP01".toList), ("Alice".toList), [], [], 0⟩], 2, 1⟩) ∧
    deleteEmployeesIndex true
        ⟨[⟨1, ("EMP01".toList), ("Alice".toList), [], [], 0⟩], 2, 1⟩ [1, 2] =
      (Except.ok ⟨true, 1, none⟩, ⟨[], 2, 1⟩) := by
  decide

/-- C9 amended: the two implementations are not behaviorally equivalent;
they diverge whenever some requested id is missing from the table: the db.js
variant returns success=false, deletedCount=0 with an error naming the
missing ids and leaves the table unchanged, while the index.js variant
reports success=true and removes exactly the requested rows that do exist
(under either driver behaviour for the `changes` count). -/
theorem C9_variants_diverge_on_missing (b : Bool) (tbl : Table)
    (ids : List Int)
    (hne : ids ≠ [])
    (hmiss : ∃ i ∈ ids, ∀ r ∈ tbl.rows, r.id ≠ i) :
    deleteEmployeesDb tbl (ids.map JsVal.num) =
      (Except.ok ⟨false, 0, some [("Employees not found: ".toList) ++
         joinComma ((missingOf tbl ids).map intToStr)]⟩, tbl) ∧
    (∃ c, deleteEmployeesIndex b tbl ids =
      (Except.ok ⟨true, c, none⟩,
       ⟨tbl.rows.filter (fun r => decide (r.id ∉ ids)),
        tbl.nextId, tbl.clock⟩)) := by
  constructor
  · exact deleteDb_int_missing tbl (ids.map JsVal.num) ids
      (by simp [hne])
      (by intro i hi; obtain ⟨a, ha, rfl⟩ := List.mem_map.1 hi; rfl)
      (by rw [List.map_map]; rfl)
      (missingOf_ne_nil tbl ids hmiss)
  · refine ⟨(ids.foldl (indexDeleteStep b) (tbl, 0)).2, ?_⟩
    unfold deleteEmployeesIndex
    rw [if_neg (by simp [List.isEmpty_iff, hne])]
    simp only [indexDelete_foldl_table]

/-- Witness for C9 amended: on a table holding only id 1 and the request
[1, 2], the divergence is realized. -/
theorem C9_variants_diverge_on_missing_witness :
    deleteEmployeesDb
        ⟨[⟨1, ("EMP01".toList), ("Alice".toList), [], [], 0⟩], 2, 1⟩
        ([1, 2].map JsVal.num) =
      (Except.ok ⟨false, 0, some [("Employees not found: ".toList) ++
         joinComma ((missingOf
           ⟨[⟨1, ("EMP01".toList), ("Alice".toList), [], [], 0⟩], 2, 1⟩
           [1, 2]).map intToStr)]⟩,
       ⟨[⟨1, ("EMP01".toList), ("Alice".toList), [], [], 0⟩], 2, 1⟩) ∧
    (∃ c, deleteEmployeesIndex true
        ⟨[⟨1, ("EMP01".toList), ("Alice".toList), [], [], 0⟩], 2, 1⟩ [1, 2] =
      (Except.ok ⟨true, c, none⟩,
       ⟨(⟨[⟨1, ("EMP01".toList), ("Alice".toList), [], [], 0⟩], 2, 1⟩ :
          Table).rows.filter (fun r => decide (r.id ∉ ([1, 2] : List Int))),
        2, 1⟩)) :=
  C9_variants_diverge_on_missing true
    ⟨[⟨1, ("EMP01".toList), ("Alice".toList), [], [], 0⟩], 2, 1⟩
    [1, 2] (by decide) (by decide)

/-- C10: `deleteEmployees` (src/db.js) accepts numeric strings as ids.
First conjunct: every entry of a list that is a number or a string whose
`Number(...)` is not NaN passes the id validation, and the call flows —
each entry coerced with `Number` — into the existence check and delete.
Second conjunct: when the coerced values are the integers `ints`, the
request behaves identically (same result, same final table) to the request
made with those numbers themselves, so the string "3" and the number 3
denote the same record.  Third conjunct: a list containing an entry that is
neither a number nor a numeric string is rejected with a thrown validation
error and deletes nothing. -/
theorem C10_numeric_string_ids (tbl : Table) (ids : List JsVal)
    (hne : ids ≠ [])
    (hvalid : ∀ i ∈ ids, isValidId i = true) :
    deleteEmployeesDb tbl ids = deleteEmployeesDbCore tbl (ids.map idNumber) ∧
    (∀ ints : List Int, ids.map idNumber = ints.map intToJsNum →
      deleteEmployeesDb tbl ids = deleteEmployeesDb tbl (ints.map JsVal.num)) ∧
    (∀ (l : List JsVal) (j : JsVal), j ∈ l → isValidId j = false →
      ∃ m, deleteEmployeesDb tbl l = (Except.error m, tbl)) := by
  refine ⟨deleteDb_valid_eq_core tbl ids hne hvalid, ?_, ?_⟩
  · intro ints hco
    have hine : ints ≠ [] := by
      intro h0
      subst h0
      simp only [List.map_nil, List.map_eq_nil_iff] at hco
      exact hne hco
    rw [deleteDb_valid_eq_core tbl ids hne hvalid, hco,
        deleteDb_valid_eq_core tbl (ints.map JsVal.num)
          (by simp [hine])
          (by intro i hi; obtain ⟨a, ha, rfl⟩ := List.mem_map.1 hi; rfl)]
    rw [List.map_map]
    rfl
  · intro l j hj hv
    exact deleteDb_invalid tbl l j hj hv

/-- Witness for C10: on a table holding id 3, the request with the string
"3" behaves identically to the request with the number 3; on a table holding
id 16, the hex string "0x10" behaves identically to the number 16; the float
string "1.5" passes validation and reaches the existence check coerced to
3/2; and the request containing the non-numeric string "x" is rejected with
a thrown error and deletes nothing. -/
theorem C10_numeric_string_ids_witness :
    (deleteEmployeesDb ⟨[⟨3, ("EMP03".toList), ("Cara".toList), [], [], 0⟩], 4, 1⟩
        [JsVal.str ("3".toList)] =
      deleteEmployeesDb ⟨[⟨3, ("EMP03".toList), ("Cara".toList), [], [], 0⟩], 4, 1⟩
        ([3].map JsVal.num)) ∧
    (deleteEmployeesDb ⟨[⟨16, ("EMP16".toList), ("Finn".toList), [], [], 0⟩], 17, 1⟩
        [JsVal.str ("0x10".toList)] =
      deleteEmployeesDb ⟨[⟨16, ("EMP16".toList), ("Finn".toList), [], [], 0⟩], 17, 1⟩
        ([16].map JsVal.num)) ∧
    (deleteEmployeesDb ⟨[⟨3, ("EMP03".toList), ("Cara".toList), [], [], 0⟩], 4, 1⟩
        [JsVal.str ("1.5".toList)] =
      deleteEmployeesDbCore ⟨[⟨3, ("EMP03".toList), ("Cara".toList), [], [], 0⟩], 4, 1⟩
        ([JsVal.str ("1.5".toList)].map idNumber)) ∧
    (∃ m, deleteEmployeesDb
        ⟨[⟨3, ("EMP03".toList), ("Cara".toList), [], [], 0⟩], 4, 1⟩
        [JsVal.str ("x".toList)] =
      (Except.error m,
       ⟨[⟨3, ("EMP03".toList), ("Cara".toList), [], [], 0⟩], 4, 1⟩)) :=
  ⟨(C10_numeric_string_ids
      ⟨[⟨3, ("EMP03".toList), ("Cara".toList), [], [], 0⟩], 4, 1⟩
      [JsVal.str ("3".toList)] (by decide) (by decide)).2.1 [3] (by decide),
   (C10_numeric_string_ids
      ⟨[⟨16, ("EMP16".toList), ("Finn".toList), [], [], 0⟩], 17, 1⟩
      [JsVal.str ("0x10".toList)] (by decide) (by decide)).2.1 [16] (by decide),
   (C10_numeric_string_ids
      ⟨[⟨3, ("EMP03".toList), ("Cara".toList), [], [], 0⟩], 4, 1⟩
      [JsVal.str ("1.5".toList)] (by decide) (by decide)).1,
   (C10_numeric_string_ids
      ⟨[⟨3, ("EMP03".toList), ("Cara".toList), [], [], 0⟩], 4, 1⟩
      [JsVal.str ("3".toList)] (by decide) (by decide)).2.2
     [JsVal.str ("x".toList)] (JsVal.str ("x".toList)) (by decide) (by decide)⟩

end EmployeeApp
